import Mathlib

/-!
Verification development for the RLTrader repository
(`src/env/BitcoinTradingEnv.py`).

The trading environment is shallow-embedded as pure Lean functions over
exact rationals (`ℚ`): Python floats become rationals, so all ledger
arithmetic is exact, and floating-point rounding is out of scope.  The
one place where the source explicitly manipulates non-finite floats —
the reward guard `reward if abs(reward) != inf else 0` (line 136) and
the feature sanitization `scaled[abs(scaled) == inf] = 0` (line 52) —
is embedded over a small float-like domain `PyF` that carries the two
infinities and NaN, with NumPy/Python semantics for subtraction, `abs`,
and `==`.

External collaborators that are not part of the repository's source are
parameters of the embedding: the three risk-adjusted-return formulas
(`util.risk_adjusted_returns`, imported by the environment but not in
`src/`) are fields of a `Strategies` record, and the SARIMAX forecaster
(statsmodels) is a `ForecastFn` parameter.  The sklearn `MinMaxScaler`
is modelled from the spec as an explicit per-column min-max transform.

Mutable attributes of the Python object (`balance`, `btc_held`,
`net_worths`, `account_history`, `trades`, `current_step`) become an
explicit `EnvState` record threaded through `_take_action`, `reset` and
`step`; construction-time attributes become an `EnvConfig` record.
-/

namespace RLTrader

/-- Float-like value domain for the places where the source manipulates
non-finite floats: a finite value (embedded as an exact rational), the
two infinities, and NaN. -/
inductive PyF where
  | fin (q : ℚ)
  | pinf
  | ninf
  | nan
deriving DecidableEq, Repr

/-- IEEE-style subtraction on `PyF` (finite arithmetic exact): any
operation with NaN gives NaN, inf - inf = NaN, etc. -/
def pySub : PyF → PyF → PyF
  | PyF.fin a, PyF.fin b => PyF.fin (a - b)
  | PyF.fin _, PyF.pinf => PyF.ninf
  | PyF.fin _, PyF.ninf => PyF.pinf
  | PyF.pinf, PyF.fin _ => PyF.pinf
  | PyF.pinf, PyF.ninf => PyF.pinf
  | PyF.pinf, PyF.pinf => PyF.nan
  | PyF.ninf, PyF.fin _ => PyF.ninf
  | PyF.ninf, PyF.pinf => PyF.ninf
  | PyF.ninf, PyF.ninf => PyF.nan
  | PyF.nan, _ => PyF.nan
  | _, PyF.nan => PyF.nan

/-- Absolute value on `PyF`: `abs(±inf) = +inf`, `abs(nan) = nan`. -/
def pyAbs : PyF → PyF
  | PyF.fin a => PyF.fin |a|
  | PyF.pinf => PyF.pinf
  | PyF.ninf => PyF.pinf
  | PyF.nan => PyF.nan

/-- A `PyF` value is finite iff it is neither an infinity nor NaN. -/
def PyF.isFin : PyF → Bool
  | PyF.fin _ => true
  | _ => false

/-- The three risk-adjusted-return formulas imported from
`util.risk_adjusted_returns` (external to `src/`; the environment calls
them with a return series and, for the first two, a benchmark series,
and receives a float which may be non-finite).  They are parameters of
the embedding; no claim depends on their values. -/
structure Strategies where
  sortinoFn : List ℚ → List ℚ → PyF
  sterlingFn : List ℚ → List ℚ → PyF
  omegaFn : List ℚ → PyF

/-- Construction-time attributes of `BitcoinTradingEnv.__init__`
(lines 21-43).  `closePrices` is the column `self.df['Close']` of the
preprocessed table, `closeStationary` is `self.stationary_df['Close']`,
`featureRows` are the rows of the stationary table restricted to the
non-index, non-Date columns, and `numColumns` is
`len(self.df.columns)`. -/
structure EnvConfig where
  closePrices : List ℚ
  closeStationary : List ℚ
  featureRows : List (List ℚ)
  numColumns : ℕ
  initial_balance : ℚ
  commission : ℚ
  reward_func : String
  n_forecasts : ℕ
  confidence_interval : ℚ
deriving DecidableEq, Repr

/-- One column of `self.account_history` (a 5×N NumPy matrix appended
along axis 1; rows are balance, btc_bought, cost, btc_sold, sales, in
the order of lines 114-120 and 148-154). -/
structure AccountColumn where
  balance : ℚ
  bought : ℚ
  cost : ℚ
  sold : ℚ
  sales : ℚ
deriving DecidableEq, Repr

/-- The 5 entries of an account-history column, top to bottom. -/
def AccountColumn.toList (c : AccountColumn) : List ℚ :=
  [c.balance, c.bought, c.cost, c.sold, c.sales]

/-- One entry of `self.trades` (lines 107-109). -/
structure Trade where
  step : ℕ
  amount : ℚ
  total : ℚ
  side : String
deriving DecidableEq, Repr

/-- The mutable attributes of the environment instance. -/
structure EnvState where
  balance : ℚ
  btc_held : ℚ
  net_worths : List ℚ
  account_history : List AccountColumn
  trades : List Trade
  current_step : ℕ
deriving DecidableEq, Repr

/-- Line 35-36: `self.obs_shape = (1, 5 + len(self.df.columns) - 2 +
(self.n_forecasts * 3))`; we record the second component. -/
def obs_shape (cfg : EnvConfig) : ℕ :=
  5 + (cfg.numColumns - 2) + cfg.n_forecasts * 3

/-- Lines 77-78: `self.df['Close'].values[self.current_step +
self.n_forecasts] + 0.01`. -/
def _current_price (cfg : EnvConfig) (s : EnvState) : ℚ :=
  cfg.closePrices.getD (s.current_step + cfg.n_forecasts) 0 + 1 / 100

/-- Lines 106-120 of `_take_action`: the tail shared by all three
branches.  Appends the trade-log entry when a trade happened, appends
the new net worth `balance + btc_held * current_price`, and appends the
account-history column `[balance, btc_bought, cost, btc_sold, sales]`.
The step counter is untouched here (it is incremented by `step`). -/
def mkNext (s : EnvState) (current_price balance btc_held btc_bought cost btc_sold sales : ℚ) :
    EnvState :=
  { balance := balance
    btc_held := btc_held
    net_worths := s.net_worths ++ [balance + btc_held * current_price]
    account_history := s.account_history ++ [⟨balance, btc_bought, cost, btc_sold, sales⟩]
    trades :=
      if btc_sold > 0 ∨ btc_bought > 0 then
        s.trades ++ [⟨s.current_step,
          if btc_sold > 0 then btc_sold else btc_bought,
          if btc_sold > 0 then sales else cost,
          if btc_sold > 0 then "sell" else "buy"⟩]
      else s.trades
    current_step := s.current_step }

/-- Lines 80-120: `_take_action`.  Python's `int(action / 4)` truncates
toward zero, i.e. `Int.tdiv`; Python's `action % 4` is nonnegative for
the positive modulus 4, i.e. `Int.emod` (Lean's `%` on `ℤ`).  There is
no validation of the action code anywhere in the source: every integer
action reaches the branch dispatch. -/
def _take_action (cfg : EnvConfig) (s : EnvState) (action : ℤ) : EnvState :=
  let current_price := _current_price cfg s
  let action_type : ℤ := Int.tdiv action 4
  let amount : ℚ := 1 / (((action % 4 : ℤ) : ℚ) + 1)
  if action_type = 0 then
    let price := current_price * (1 + cfg.commission)
    let btc_bought := min (s.balance * amount / price) (s.balance / price)
    let cost := btc_bought * price
    mkNext s current_price (s.balance - cost) (s.btc_held + btc_bought) btc_bought cost 0 0
  else if action_type = 1 then
    let price := current_price * (1 - cfg.commission)
    let btc_sold := s.btc_held * amount
    let sales := btc_sold * price
    mkNext s current_price (s.balance + sales) (s.btc_held - btc_sold) 0 0 btc_sold sales
  else
    mkNext s current_price s.balance s.btc_held 0 0 0 0

/-- NumPy `np.diff`: adjacent differences `a[i+1] - a[i]`. -/
def qDiff (l : List ℚ) : List ℚ :=
  (l.zip l.tail).map fun p => p.2 - p.1

/-- Line 136: `return reward if abs(reward) != inf else 0`.  Note that
`abs(nan) != inf` is `True` in Python, so NaN passes through
unchanged; only the two infinities are replaced by 0. -/
def reward_guard (r : PyF) : PyF :=
  if pyAbs r = PyF.pinf then PyF.fin 0 else r

/-- Lines 122-136: `_reward`.  The return series is `np.diff` of the
net worths, the benchmark is `np.diff` of the Close column sliced
positionally from `n_forecasts` to `n_forecasts + current_step + 1`.
The strategy dispatched on `reward_func` is bound to `_r0` and then —
exactly as in the source — discarded: line 134 unconditionally
overwrites `reward` with `net_worths[-1] - net_worths[-2]` before the
guard of line 136 runs. -/
def _reward (st : Strategies) (cfg : EnvConfig) (s : EnvState) : PyF :=
  let returns := qDiff s.net_worths
  let benchmark := qDiff ((cfg.closePrices.drop cfg.n_forecasts).take (s.current_step + 1))
  let _r0 : PyF :=
    if cfg.reward_func = "sortino" then st.sortinoFn returns benchmark
    else if cfg.reward_func = "sterling" then st.sterlingFn returns benchmark
    else if cfg.reward_func = "omega" then st.omegaFn returns
    else PyF.nan
  let reward := pySub (PyF.fin (s.net_worths.getLastD 0))
    (PyF.fin (s.net_worths.dropLast.getLastD 0))
  reward_guard reward

/-- Lines 138-140: `_done`.  The right disjunct compares the step
counter with `len(self.df) - self.n_forecasts - 1` computed in ℤ, as
Python does with its unbounded ints. -/
def _done (cfg : EnvConfig) (s : EnvState) : Bool :=
  decide (s.net_worths.getLastD 0 < cfg.initial_balance / 10) ||
  decide ((s.current_step : ℤ) = (cfg.closePrices.length : ℤ) - (cfg.n_forecasts : ℤ) - 1)

/-- Line 52: `scaled[abs(scaled) == inf] = 0` on the feature window.
NumPy's `abs` maps both infinities to `+inf` and NaN to NaN, and
`nan == inf` is false, so the two infinities are zeroed while NaN
survives. -/
def sanitize_inf (m : List (List PyF)) : List (List PyF) :=
  m.map fun row => row.map fun x => if pyAbs x = PyF.pinf then PyF.fin 0 else x

/-- Smallest element of a rational list (0 for the empty list). -/
def qMinL : List ℚ → ℚ
  | [] => 0
  | x :: xs => xs.foldl min x

/-- Largest element of a rational list (0 for the empty list). -/
def qMaxL : List ℚ → ℚ
  | [] => 0
  | x :: xs => xs.foldl max x

/-- The j-th column of a row-major matrix. -/
def colVals (rows : List (List ℚ)) (j : ℕ) : List ℚ :=
  rows.filterMap fun r => r.get? j

/-- Divisor used by min-max scaling: a zero range is replaced by 1
(sklearn `_handle_zeros_in_scale`), so constant columns map to 0. -/
def handleZeroScale (d : ℚ) : ℚ :=
  if d = 0 then 1 else d

/-- Modelled from the spec: sklearn's `MinMaxScaler.fit_transform`
(external library, not in `src/`); §4.3 of the spec: "min-max scale the
whole window to [0,1] per column (fit and transform on this exact
window every call)".  Each entry is mapped to
`(x - colMin) / (colMax - colMin)` for its column. -/
def minMaxScale (rows : List (List ℚ)) : List (List ℚ) :=
  rows.map fun row =>
    row.mapIdx fun j x =>
      let c := colVals rows j
      (x - qMinL c) / handleZeroScale (qMaxL c - qMinL c)

/-- Min-max scaling of a single 5-entry account-history column: since
sklearn scales each feature (= each time column of the 5×N matrix)
independently, `fit_transform(account_history)[:, -1]` depends only on
the last column's own five entries. -/
def scale5 (v : List ℚ) : List ℚ :=
  v.map fun x => (x - qMinL v) / handleZeroScale (qMaxL v - qMinL v)

/-- Modelled from the spec: the SARIMAX forecaster (statsmodels,
external to `src/`), as a parameter.  Given the stationary close series
so far, the horizon `steps`, and `alpha = 1 - confidence_interval`, it
returns the point forecast (`predicted_mean`, `steps` values) and the
flattened confidence-interval bounds (`conf_int().flatten()`,
`2 * steps` values); §4.4 of the spec. -/
def ForecastFn : Type :=
  List ℚ → ℕ → ℚ → List ℚ × List ℚ

/-- Lines 45-75: `_next_observation`.  The feature window is the first
`current_step + n_forecasts + 1` stationary feature rows, min-max
scaled (the inf-zeroing of line 52 is a no-op on finite data; it is
embedded separately as `sanitize_inf`); the observation is the last
scaled row, then the forecast mean, then the flattened confidence
bounds, then the scaled last account-history column. -/
def _next_observation (fc : ForecastFn) (cfg : EnvConfig) (s : EnvState) : List ℚ :=
  let window := cfg.featureRows.take (s.current_step + cfg.n_forecasts + 1)
  let scaled := minMaxScale window
  let obs0 := scaled.getLastD []
  let past := cfg.closeStationary.take (s.current_step + cfg.n_forecasts + 1)
  let fres := fc past cfg.n_forecasts (1 - cfg.confidence_interval)
  let obs1 := obs0 ++ fres.1 ++ fres.2
  obs1 ++ scale5 (s.account_history.getLastD ⟨0, 0, 0, 0, 0⟩).toList

/-- Lines 142-155 of `reset`: the reinitialized mutable state.  It
reads no mutable attribute of the previous episode. -/
def resetState (cfg : EnvConfig) : EnvState :=
  { balance := cfg.initial_balance
    btc_held := 0
    net_worths := [cfg.initial_balance]
    account_history := [⟨cfg.initial_balance, 0, 0, 0, 0⟩]
    trades := []
    current_step := 0 }

/-- Lines 142-157: `reset`.  The previous state is taken as an argument
to mirror the method receiver, and ignored, exactly as the source
ignores every mutable attribute. -/
def reset (fc : ForecastFn) (cfg : EnvConfig) (_prev : EnvState) : EnvState × List ℚ :=
  (resetState cfg, _next_observation fc cfg (resetState cfg))

/-- Lines 159-162 of `step`: `_take_action` followed by the increment
of `current_step`. -/
def stepState (cfg : EnvConfig) (action : ℤ) (s : EnvState) : EnvState :=
  let s1 := _take_action cfg s action
  { s1 with current_step := s1.current_step + 1 }

/-- Lines 159-168: `step`.  Returns the mutated state together with the
tuple `(obs, reward, done)` (the info dict is always empty and
omitted).  Observation, reward and termination are all computed on the
post-increment state. -/
def step (fc : ForecastFn) (st : Strategies) (cfg : EnvConfig) (action : ℤ) (s : EnvState) :
    EnvState × List ℚ × PyF × Bool :=
  let s2 := stepState cfg action s
  (s2, _next_observation fc cfg s2, _reward st cfg s2, _done cfg s2)

/-- Concrete fixture configuration used by witnesses and
counterexamples: one price bar at 0.99 (so the executed price is
exactly 1), no forecast horizon, zero commission. -/
def cfg0 : EnvConfig :=
  { closePrices := [99 / 100]
    closeStationary := [0]
    featureRows := [[0]]
    numColumns := 3
    initial_balance := 10000
    commission := 0
    reward_func := "sortino"
    n_forecasts := 0
    confidence_interval := 95 / 100 }

/-- Fixture forecast function: zero forecasts of the declared lengths. -/
def fc0 : ForecastFn :=
  fun _ n _ => (List.replicate n 0, List.replicate (2 * n) 0)

/-- Fixture strategies: constant zero. -/
def st0 : Strategies :=
  { sortinoFn := fun _ _ => PyF.fin 0
    sterlingFn := fun _ _ => PyF.fin 0
    omegaFn := fun _ => PyF.fin 0 }

/-! ## Helper lemmas -/

/-- For codes at least 8, Python's `int(action / 4)` is at least 2. -/
theorem two_le_tdiv_four {a : ℤ} (h : 8 ≤ a) : 2 ≤ Int.tdiv a 4 := by
  rw [Int.tdiv_eq_ediv (by omega) (by norm_num)]
  omega

/-- When the action type is neither 0 nor 1, `_take_action` falls
through to the shared tail with no trade quantities. -/
theorem take_action_hold (cfg : EnvConfig) (s : EnvState) (a : ℤ)
    (h0 : Int.tdiv a 4 ≠ 0) (h1 : Int.tdiv a 4 ≠ 1) :
    _take_action cfg s a = mkNext s (_current_price cfg s) s.balance s.btc_held 0 0 0 0 := by
  simp only [_take_action]
  rw [if_neg h0, if_neg h1]

/-! ## Claims -/

/-- C1: for every call to `_reward`, the returned reward equals
`net_worths[-1] - net_worths[-2]` regardless of which reward strategy
(`sortino`, `sterling`, `omega`) was configured and regardless of what
the strategy functions compute — the selected strategy's value is
computed and then discarded — and a reward equal to plus or minus
infinity is replaced by 0 by the final guard. -/
theorem C1_reward_is_net_worth_delta (st st' : Strategies) (cfg : EnvConfig)
    (rf rf' : String) (s : EnvState) :
    _reward st { cfg with reward_func := rf } s = _reward st' { cfg with reward_func := rf' } s
    ∧ _reward st cfg s
        = PyF.fin (s.net_worths.getLastD 0 - s.net_worths.dropLast.getLastD 0)
    ∧ reward_guard PyF.pinf = PyF.fin 0
    ∧ reward_guard PyF.ninf = PyF.fin 0 := by
  refine ⟨rfl, ?_, rfl, rfl⟩
  simp [_reward, reward_guard, pySub, pyAbs]

/-- C3: after every `step` call, the last element of the net-worth
history equals `balance + position * currentPrice`, where
`currentPrice` is the price at which the step's mutation executed
(the step counter is incremented only after the mutation). -/
theorem C3_net_worth_invariant (fc : ForecastFn) (st : Strategies) (cfg : EnvConfig)
    (a : ℤ) (s : EnvState) :
    (step fc st cfg a s).1.net_worths.getLast?
      = some ((step fc st cfg a s).1.balance
          + (step fc st cfg a s).1.btc_held * _current_price cfg s) := by
  suffices h : (stepState cfg a s).net_worths.getLast?
      = some ((stepState cfg a s).balance
        + (stepState cfg a s).btc_held * _current_price cfg s) from h
  simp only [stepState, _take_action]
  split_ifs <;> simp [mkNext]

/-- C4: every call to `step` returns `done = true` exactly when the
latest net worth is strictly below `initial_balance / 10` or the step
counter equals `len(priceSeries) - n_forecasts - 1`, and `false`
otherwise. -/
theorem C4_done_predicate (fc : ForecastFn) (st : Strategies) (cfg : EnvConfig)
    (a : ℤ) (s : EnvState) :
    (step fc st cfg a s).2.2.2 = true
      ↔ ((step fc st cfg a s).1.net_worths.getLastD 0 < cfg.initial_balance / 10
        ∨ ((step fc st cfg a s).1.current_step : ℤ)
            = (cfg.closePrices.length : ℤ) - (cfg.n_forecasts : ℤ) - 1) := by
  simp [step, _done]

/-- C9: `reset` reads none of the mutable attributes, so calling it
twice in a row yields identical observations and an identical state,
equal to the canonical initial state: balance `initial_balance`,
position 0, net-worth history `[initial_balance]`, a single zero-seeded
account-history column, empty trade log, step counter 0. -/
theorem C9_reset_idempotent (fc : ForecastFn) (cfg : EnvConfig) (s s' : EnvState) :
    reset fc cfg s = reset fc cfg s'
    ∧ reset fc cfg (reset fc cfg s).1 = reset fc cfg s
    ∧ (reset fc cfg (reset fc cfg s).1).2 = (reset fc cfg s).2
    ∧ (reset fc cfg s).1.balance = cfg.initial_balance
    ∧ (reset fc cfg s).1.btc_held = 0
    ∧ (reset fc cfg s).1.net_worths = [cfg.initial_balance]
    ∧ (reset fc cfg s).1.account_history = [⟨cfg.initial_balance, 0, 0, 0, 0⟩]
    ∧ (reset fc cfg s).1.trades = []
    ∧ (reset fc cfg s).1.current_step = 0 :=
  ⟨rfl, rfl, rfl, rfl, rfl, rfl, rfl, rfl, rfl⟩

/-- C7 counterexample: the source has no action validation.  The
out-of-range action code −1 is not rejected: `int(-1 / 4) = 0` and
`-1 % 4 = 3` in Python, so it executes a buy of 1/4 of the balance —
from the reset state of the fixture (balance 10000, executed price 1)
the balance drops to 7500, the net-worth history grows, and a trade is
logged.  This contradicts the claim that the ledger is left unchanged
for actions outside [0, 12). -/
theorem C7_counterexample :
    (stepState cfg0 (-1) (resetState cfg0)).balance = 7500
    ∧ (resetState cfg0).balance = 10000
    ∧ (stepState cfg0 (-1) (resetState cfg0)).net_worths ≠ (resetState cfg0).net_worths
    ∧ (stepState cfg0 (-1) (resetState cfg0)).trades ≠ (resetState cfg0).trades := by
  norm_num [stepState, _take_action, mkNext, _current_price, resetState, cfg0, min_def,
    show Int.tdiv (-1) 4 = 0 by decide, show ((-1 : ℤ) % 4) = 3 by decide]

/-- C7 amended: `step` performs no range validation at all: every
integer action code is processed by `_take_action`, the net-worth
history and the account history always gain exactly one entry and the
step counter is always incremented — there is no path that rejects an
action before mutating the ledger. -/
theorem C7_no_action_validation (cfg : EnvConfig) (s : EnvState) (a : ℤ) :
    (stepState cfg a s).net_worths.length = s.net_worths.length + 1
    ∧ (stepState cfg a s).account_history.length = s.account_history.length + 1
    ∧ (stepState cfg a s).current_step = s.current_step + 1 := by
  simp only [stepState, _take_action]
  split_ifs <;> simp [mkNext]

/-- C8 counterexample: the reward guard of line 136 is the only
sanitization applied to the reward, and it maps NaN to itself
(`abs(nan) != inf` is true in Python), so a NaN arising in the reward
computation is returned unsanitized — contradicting the claim that
every non-finite value is sanitized to a finite value before being
returned. -/
theorem C8_counterexample :
    reward_guard PyF.nan = PyF.nan ∧ PyF.nan.isFin = false :=
  ⟨rfl, rfl⟩

/-- C8 amended: the two infinities are indeed sanitized — the reward
guard never returns plus or minus infinity, and the feature-window
sanitization of line 52 zeroes every infinite entry — but NaN is not:
it passes the reward guard unchanged (see the counterexample), and
forecast values are inserted into the observation with no sanitization
at all. -/
theorem C8_inf_sanitized (r : PyF) (m : List (List PyF)) :
    reward_guard r ≠ PyF.pinf
    ∧ reward_guard r ≠ PyF.ninf
    ∧ ((sanitize_inf m).all fun row =>
        row.all fun x => decide (x ≠ PyF.pinf ∧ x ≠ PyF.ninf)) = true := by
  refine ⟨?_, ?_, ?_⟩
  · cases r <;> simp [reward_guard, pyAbs]
  · cases r <;> simp [reward_guard, pyAbs]
  · simp only [sanitize_inf, List.all_eq_true, List.mem_map, decide_eq_true_eq]
    rintro row ⟨r', _, rfl⟩ x hx
    simp only [List.mem_map] at hx
    obtain ⟨y, _, rfl⟩ := hx
    cases y <;> simp [pyAbs]

/-- C2: for every action code in [0, 12) applied to a ledger state with
nonnegative balance, nonnegative position and positive current price,
the balance and the position after `_take_action` runs are both still
nonnegative.  The commission is assumed to be a fraction of notional
(spec glossary), i.e. between 0 and 1; outside that range the buy and
sell prices could be nonpositive and the bound would fail. -/
theorem C2_balance_position_nonneg (cfg : EnvConfig) (s : EnvState) (a : ℤ)
    (hb : 0 ≤ s.balance) (hp : 0 ≤ s.btc_held)
    (hprice : 0 < _current_price cfg s)
    (hc0 : 0 ≤ cfg.commission) (hc1 : cfg.commission ≤ 1)
    (_ha0 : 0 ≤ a) (_ha1 : a < 12) :
    0 ≤ (_take_action cfg s a).balance ∧ 0 ≤ (_take_action cfg s a).btc_held := by
  have hm0 : (0 : ℚ) ≤ ((a % 4 : ℤ) : ℚ) := by
    exact_mod_cast Int.emod_nonneg a (by norm_num)
  have hd1 : (1 : ℚ) ≤ ((a % 4 : ℤ) : ℚ) + 1 := by linarith
  have hamt0 : (0 : ℚ) < 1 / (((a % 4 : ℤ) : ℚ) + 1) :=
    one_div_pos.mpr (by linarith)
  have hamt1 : 1 / (((a % 4 : ℤ) : ℚ) + 1) ≤ 1 :=
    (div_le_one (by linarith)).mpr hd1
  simp only [_take_action]
  split_ifs with h0 h1
  · -- buy branch
    have hpr : 0 < _current_price cfg s * (1 + cfg.commission) :=
      mul_pos hprice (by linarith)
    have hbought0 : 0 ≤ min
        (s.balance * (1 / (((a % 4 : ℤ) : ℚ) + 1)) / (_current_price cfg s * (1 + cfg.commission)))
        (s.balance / (_current_price cfg s * (1 + cfg.commission))) := by
      refine le_min ?_ ?_ <;> positivity
    have hcost : min
        (s.balance * (1 / (((a % 4 : ℤ) : ℚ) + 1)) / (_current_price cfg s * (1 + cfg.commission)))
        (s.balance / (_current_price cfg s * (1 + cfg.commission)))
          * (_current_price cfg s * (1 + cfg.commission)) ≤ s.balance := by
      have hle := min_le_right
        (s.balance * (1 / (((a % 4 : ℤ) : ℚ) + 1)) / (_current_price cfg s * (1 + cfg.commission)))
        (s.balance / (_current_price cfg s * (1 + cfg.commission)))
      have := mul_le_mul_of_nonneg_right hle hpr.le
      rwa [div_mul_cancel₀ _ (ne_of_gt hpr)] at this
    constructor
    · simp only [mkNext]
      linarith
    · simp only [mkNext]
      linarith
  · -- sell branch
    have hpr : 0 ≤ _current_price cfg s * (1 - cfg.commission) := by
      have h1c : (0 : ℚ) ≤ 1 - cfg.commission := by linarith
      positivity
    have hsold0 : 0 ≤ s.btc_held * (1 / (((a % 4 : ℤ) : ℚ) + 1)) :=
      mul_nonneg hp hamt0.le
    have hsold1 : s.btc_held * (1 / (((a % 4 : ℤ) : ℚ) + 1)) ≤ s.btc_held := by
      calc s.btc_held * (1 / (((a % 4 : ℤ) : ℚ) + 1)) ≤ s.btc_held * 1 :=
            mul_le_mul_of_nonneg_left hamt1 hp
        _ = s.btc_held := mul_one _
    have hsales : 0 ≤ s.btc_held * (1 / (((a % 4 : ℤ) : ℚ) + 1))
        * (_current_price cfg s * (1 - cfg.commission)) :=
      mul_nonneg hsold0 hpr
    constructor
    · simp only [mkNext]
      linarith
    · simp only [mkNext]
      linarith
  · -- hold branch
    exact ⟨hb, hp⟩

/-- Witness for C2 at the fixture: full buy (action 0) from the reset
state keeps balance and position nonnegative. -/
theorem C2_witness :
    0 ≤ (_take_action cfg0 (resetState cfg0) 0).balance
    ∧ 0 ≤ (_take_action cfg0 (resetState cfg0) 0).btc_held :=
  C2_balance_position_nonneg cfg0 (resetState cfg0) 0
    (by norm_num [resetState, cfg0])
    (by norm_num [resetState, cfg0])
    (by norm_num [_current_price, resetState, cfg0])
    (by norm_num [cfg0])
    (by norm_num [cfg0])
    (by norm_num)
    (by norm_num)

/-- C6: for every action code in the hold range (8 to 11) the action
type is 2, so `_take_action` leaves balance and position unchanged and
appends no trade-log entry, yet the net-worth history gains exactly one
new element (the unchanged net worth) and the account history exactly
one new column whose bought, cost, sold and sales entries are all 0. -/
theorem C6_hold_frame (cfg : EnvConfig) (s : EnvState) (a : ℤ)
    (h8 : 8 ≤ a) (_h12 : a < 12) :
    (_take_action cfg s a).balance = s.balance
    ∧ (_take_action cfg s a).btc_held = s.btc_held
    ∧ (_take_action cfg s a).trades = s.trades
    ∧ (_take_action cfg s a).net_worths
        = s.net_worths ++ [s.balance + s.btc_held * _current_price cfg s]
    ∧ (_take_action cfg s a).account_history
        = s.account_history ++ [⟨s.balance, 0, 0, 0, 0⟩] := by
  have h2 := two_le_tdiv_four h8
  rw [take_action_hold cfg s a (by omega) (by omega)]
  simp [mkNext]

/-- Witness for C6 at the fixture: hold action 9 from the reset state. -/
theorem C6_witness :
    (_take_action cfg0 (resetState cfg0) 9).balance = (resetState cfg0).balance
    ∧ (_take_action cfg0 (resetState cfg0) 9).btc_held = (resetState cfg0).btc_held
    ∧ (_take_action cfg0 (resetState cfg0) 9).trades = (resetState cfg0).trades
    ∧ (_take_action cfg0 (resetState cfg0) 9).net_worths
        = (resetState cfg0).net_worths
          ++ [(resetState cfg0).balance
            + (resetState cfg0).btc_held * _current_price cfg0 (resetState cfg0)]
    ∧ (_take_action cfg0 (resetState cfg0) 9).account_history
        = (resetState cfg0).account_history ++ [⟨(resetState cfg0).balance, 0, 0, 0, 0⟩] :=
  C6_hold_frame cfg0 (resetState cfg0) 9 (by norm_num) (by norm_num)

/-- C10: for every integer action code at least 8 — including codes
12 and beyond, outside the declared action space — `step` is total and
`_take_action` treats the action as a hold: `int(a / 4)` is at least 2,
matching neither the buy branch nor the sell branch, so balance and
position are unchanged while the net-worth history and the account
history still each gain one entry and no trade is logged. -/
theorem C10_out_of_range_is_hold (fc : ForecastFn) (st : Strategies) (cfg : EnvConfig)
    (s : EnvState) (a : ℤ) (h8 : 8 ≤ a) :
    (step fc st cfg a s).1.balance = s.balance
    ∧ (step fc st cfg a s).1.btc_held = s.btc_held
    ∧ (step fc st cfg a s).1.net_worths.length = s.net_worths.length + 1
    ∧ (step fc st cfg a s).1.account_history.length = s.account_history.length + 1
    ∧ (step fc st cfg a s).1.trades = s.trades := by
  have h2 := two_le_tdiv_four h8
  suffices h : (stepState cfg a s).balance = s.balance
      ∧ (stepState cfg a s).btc_held = s.btc_held
      ∧ (stepState cfg a s).net_worths.length = s.net_worths.length + 1
      ∧ (stepState cfg a s).account_history.length = s.account_history.length + 1
      ∧ (stepState cfg a s).trades = s.trades from h
  simp only [stepState]
  rw [take_action_hold cfg s a (by omega) (by omega)]
  simp [mkNext]

/-- Witness for C10 at the fixture: the out-of-range action 12. -/
theorem C10_witness :
    (step fc0 st0 cfg0 12 (resetState cfg0)).1.balance = (resetState cfg0).balance
    ∧ (step fc0 st0 cfg0 12 (resetState cfg0)).1.btc_held = (resetState cfg0).btc_held
    ∧ (step fc0 st0 cfg0 12 (resetState cfg0)).1.net_worths.length
        = (resetState cfg0).net_worths.length + 1
    ∧ (step fc0 st0 cfg0 12 (resetState cfg0)).1.account_history.length
        = (resetState cfg0).account_history.length + 1
    ∧ (step fc0 st0 cfg0 12 (resetState cfg0)).1.trades = (resetState cfg0).trades :=
  C10_out_of_range_is_hold fc0 st0 cfg0 (resetState cfg0) 12 (by norm_num)

/-- C5: every observation returned by `reset` or `step` has exactly
`5 + (numColumns - 2) + 3 * n_forecasts` entries — the scaled feature
row, the `n_forecasts`-point forecast, the `2 * n_forecasts`
confidence-interval bounds and the 5 scaled account-history values —
equal to the shape declared at construction, for every state.  The
hypotheses record the data-model facts: every stationary feature row
has the non-index, non-Date columns of the price table, the table is
nonempty, and the forecaster returns its declared output lengths. -/
theorem C5_observation_length (fc : ForecastFn) (cfg : EnvConfig) (s : EnvState)
    (hrows : ∀ r ∈ cfg.featureRows, r.length = cfg.numColumns - 2)
    (hne : cfg.featureRows ≠ [])
    (hfc : ∀ ser n al, (fc ser n al).1.length = n ∧ (fc ser n al).2.length = 2 * n) :
    (_next_observation fc cfg s).length = obs_shape cfg := by
  unfold _next_observation
  set w := cfg.featureRows.take (s.current_step + cfg.n_forecasts + 1) with hw_def
  have hw : w ≠ [] := by
    have h1 : 0 < cfg.featureRows.length := List.length_pos.mpr hne
    intro hcontra
    have h2 := congrArg List.length hcontra
    rw [hw_def, List.length_take] at h2
    simp only [List.length_nil] at h2
    omega
  have hlast : w.getLast? = some (w.getLast hw) := List.getLast?_eq_getLast_of_ne_nil hw
  have hmem : w.getLast hw ∈ cfg.featureRows :=
    List.take_subset _ _ (List.getLast_mem hw)
  have hlen_last : (w.getLast hw).length = cfg.numColumns - 2 := hrows _ hmem
  have h0 : (minMaxScale w).getLastD []
      = (w.getLast hw).mapIdx fun j x =>
          (x - qMinL (colVals w j)) / handleZeroScale (qMaxL (colVals w j) - qMinL (colVals w j)) := by
    rw [List.getLastD_eq_getLast?]
    unfold minMaxScale
    rw [List.getLast?_map, hlast]
    rfl
  obtain ⟨hf1, hf2⟩ := hfc (cfg.closeStationary.take (s.current_step + cfg.n_forecasts + 1))
    cfg.n_forecasts (1 - cfg.confidence_interval)
  simp only [List.length_append, hf1, hf2, h0, List.length_mapIdx, hlen_last,
    scale5, AccountColumn.toList, List.length_map, List.length_cons, List.length_nil, obs_shape]
  omega

/-- Witness for C5 at the fixture: the initial observation after reset
has the declared length. -/
theorem C5_witness :
    (_next_observation fc0 cfg0 (resetState cfg0)).length = obs_shape cfg0 :=
  C5_observation_length fc0 cfg0 (resetState cfg0)
    (by intro r hr; simp only [cfg0, List.mem_singleton] at hr; simp [hr, cfg0])
    (by simp [cfg0])
    (by intro ser n al; simp [fc0])

end RLTrader
